import Mathlib

/-!
Verification of the Interactive-Commit audio-detection subsystem.

This file gives a shallow embedding of the detection and formatting core of
the repository (Go packages internal/audio, internal/format, internal/cli,
and the PowerShell script embedded in internal/audio/detector.go), together
with theorems settling the frozen specification claims.

Modelling conventions:
- Go strings are Lean `String` (lists of characters); byte-index operations
  of the Go standard library are modelled character-wise, which agrees with
  Go on the ASCII inputs all claims are about.
- External processes (playerctl, powershell.exe, osascript) are inputs to
  the embedded functions: an environment value records what each invocation
  would return, `Except` capturing the output/error distinction of Go's
  `cmd.Output()`.
- Fallible Go functions returning `(T, error)` become `Except String T`;
  a `*MediaInfo` that may be nil becomes `Option MediaInfo`.
- Window titles are single-line, so the `.` of the host-side regular
  expressions is modelled as matching any character.
-/

/-! ## Character and list-of-character primitives mirroring Go strings and
PowerShell string operators -/

/-- Character list of a string (Go strings iterated as runes). -/
def strL (s : String) : List Char := s.data

/-- String from a character list. -/
def ofL (l : List Char) : String := ⟨l⟩

/-- ASCII lower-casing of one character, as used by Go strings.ToLower and
by PowerShell's case-insensitive operators on the ASCII literals that occur
in this repository. -/
def lowerC (c : Char) : Char := c.toLower

/-- Lower-case a character list. -/
def lowerL (l : List Char) : List Char := l.map lowerC

/-- Case-sensitive prefix test on character lists. -/
def startsWithL : List Char → List Char → Bool
  | [], _ => true
  | _ :: _, [] => false
  | p :: ps, c :: cs => p = c && startsWithL ps cs

/-- Case-insensitive prefix test (PowerShell -match / -like literals). -/
def startsWithCI : List Char → List Char → Bool
  | [], _ => true
  | _ :: _, [] => false
  | p :: ps, c :: cs => lowerC p = lowerC c && startsWithCI ps cs

/-- Go strings.Contains on character lists (true for the empty needle). -/
def containsL (hay needle : List Char) : Bool :=
  match hay with
  | [] => startsWithL needle []
  | _ :: t => startsWithL needle hay || containsL t needle

/-- Case-insensitive containment (PowerShell -like with a starred pattern). -/
def containsCI (hay needle : List Char) : Bool :=
  containsL (lowerL hay) (lowerL needle)

/-- Go unicode whitespace test restricted to the ASCII whitespace that the
claims exercise. -/
def isWS (c : Char) : Bool := c.isWhitespace

/-- Go strings.TrimSpace on character lists. -/
def trimL (l : List Char) : List Char :=
  ((l.dropWhile isWS).reverse.dropWhile isWS).reverse

/-- Go strings.TrimSpace. -/
def goTrim (s : String) : String := ofL (trimL (strL s))

/-- Go strings.TrimRight with cutset a single newline, as used by runHook. -/
def goTrimRightNL (s : String) : String :=
  ofL (((strL s).reverse.dropWhile (fun c => c = '\n')).reverse)

/-- Split a character list at every occurrence of a single character,
mirroring Go strings.Split with a one-character separator. -/
def splitCharL (sep : Char) : List Char → List (List Char)
  | [] => [[]]
  | c :: cs =>
    let r := splitCharL sep cs
    if c = sep then [] :: r
    else
      match r with
      | [] => [[c]]
      | h :: t => (c :: h) :: t

/-- Fuelled worker for Go strings.Split with a non-empty separator: split at
each non-overlapping occurrence, scanning left to right. -/
def splitLF (sep : List Char) : Nat → List Char → List (List Char)
  | _, [] => [[]]
  | 0, s => [s]
  | fuel + 1, c :: cs =>
    if startsWithL sep (c :: cs) && !sep.isEmpty then
      [] :: splitLF sep fuel ((c :: cs).drop sep.length)
    else
      match splitLF sep fuel cs with
      | [] => [[c]]
      | h :: t => (c :: h) :: t

/-- Go strings.Split for a non-empty separator. -/
def goSplit (s sep : String) : List String :=
  (splitLF (strL sep) (strL s).length (strL s)).map ofL

/-- Fuelled worker for Go strings.ReplaceAll: replace each non-overlapping
occurrence of a non-empty pattern, scanning left to right. -/
def replaceAllLF (pat rep : List Char) : Nat → List Char → List Char
  | _, [] => []
  | 0, s => s
  | fuel + 1, c :: cs =>
    if startsWithL pat (c :: cs) && !pat.isEmpty then
      rep ++ replaceAllLF pat rep fuel ((c :: cs).drop pat.length)
    else
      c :: replaceAllLF pat rep fuel cs

/-- Go strings.ReplaceAll for a non-empty pattern. -/
def goReplaceAll (s pat rep : String) : String :=
  ofL (replaceAllLF (strL pat) (strL rep) (strL s).length (strL s))

/-- Go strings.LastIndex on character lists: index (in characters) of the
last occurrence of the pattern, if any. -/
def lastIndexL (pat : List Char) : List Char → Option Nat
  | [] => if pat.isEmpty then some 0 else none
  | c :: cs =>
    match lastIndexL pat cs with
    | some i => some (i + 1)
    | none => if startsWithL pat (c :: cs) then some 0 else none

/-- Go strings.Join on character lists. -/
def joinSepL (sep : List Char) : List (List Char) → List Char
  | [] => []
  | [x] => x
  | x :: y :: t => x ++ sep ++ joinSepL sep (y :: t)

/-- Go strings.HasPrefix. -/
def goStartsWith (s pre : String) : Bool := startsWithL (strL pre) (strL s)

/-- Go strings.HasSuffix. -/
def goEndsWith (s suf : String) : Bool :=
  startsWithL (strL suf).reverse (strL s).reverse

/-- Go strings.TrimPrefix (drop the prefix when present). -/
def goDropFront (s pre : String) : String :=
  if goStartsWith s pre then ofL ((strL s).drop (strL pre).length) else s

/-- Go strings.TrimSuffix (drop the suffix when present). -/
def goDropBack (s suf : String) : String :=
  if goEndsWith s suf then ofL ((strL s).take ((strL s).length - (strL suf).length)) else s

/-- Go strings.Contains. -/
def goContains (s sub : String) : Bool := containsL (strL s) (strL sub)

/-- Go strings.ToLower restricted to ASCII. -/
def goToLower (s : String) : String := ofL (lowerL (strL s))

/-! ## A small backtracking matcher for the fixed regular expressions of the
embedded PowerShell script

All the script's patterns are alternations of greedy `(.+)` groups and
literal fragments, optionally anchored at the end with `$`, evaluated by the
case-insensitive PowerShell -match operator.  Because every pattern begins
with `(.+)`, the leftmost .NET match always starts at position 0, and the
backtracking priority maximises earlier groups first; the matcher below
implements exactly that discipline. -/

/-- One element of a fixed pattern: a greedy one-or-more wildcard group, a
case-insensitively matched literal, or the end-of-string anchor. -/
inductive RElem
  | grp
  | lit (l : List Char)
  | eos
deriving DecidableEq

/-- First successful application of a partial function along a list. -/
def firstSome (f : α → Option β) : List α → Option β
  | [] => none
  | a :: as =>
    match f a with
    | some b => some b
    | none => firstSome f as

/-- All splits of a list into a non-empty front and a back, longest front
first (the candidate extents of a greedy group). -/
def splitsDesc (s : List Char) : List (List Char × List Char) :=
  (List.range s.length).map (fun i => (s.take (s.length - i), s.drop (s.length - i)))

/-- Match a pattern against a character list, anchored at the start but with
an arbitrary remainder allowed unless the pattern ends in `eos`; returns the
captured groups of the highest-priority match. -/
def reMatchCaps : List RElem → List Char → Option (List (List Char))
  | [], _ => some []
  | .lit l :: rest, s => if startsWithCI l s then reMatchCaps rest (s.drop l.length) else none
  | .eos :: rest, s => if s.isEmpty then reMatchCaps rest s else none
  | .grp :: rest, s =>
    firstSome (fun gt => (reMatchCaps rest gt.2).map (fun caps => gt.1 :: caps)) (splitsDesc s)

/-- Shape the captures of a two-group pattern. -/
def reGroups2 (caps : Option (List (List Char))) : Option (String × String) :=
  match caps with
  | some [a, b] => some (ofL a, ofL b)
  | _ => none

/-- PowerShell pattern '(.+) - (.+)'. -/
def matchTwo (s : String) : Option (String × String) :=
  reGroups2 (reMatchCaps [.grp, .lit (strL " - "), .grp] (strL s))

/-- PowerShell pattern '(.+) - (.+) - YouTube Music'. -/
def matchYTMusic (s : String) : Option (String × String) :=
  reGroups2 (reMatchCaps [.grp, .lit (strL " - "), .grp, .lit (strL " - YouTube Music")] (strL s))

/-- PowerShell pattern '(.+) - (.+) - YouTube - Google Chrome$'. -/
def matchYTChrome2 (s : String) : Option (String × String) :=
  reGroups2
    (reMatchCaps [.grp, .lit (strL " - "), .grp, .lit (strL " - YouTube - Google Chrome"), .eos]
      (strL s))

/-- PowerShell pattern '(.+) - YouTube - Google Chrome$'. -/
def matchYTChrome1 (s : String) : Option String :=
  match reMatchCaps [.grp, .lit (strL " - YouTube - Google Chrome"), .eos] (strL s) with
  | some [a] => some (ofL a)
  | _ => none

/-- PowerShell pattern '(.+) - (.+) - YouTube$'. -/
def matchYT2 (s : String) : Option (String × String) :=
  reGroups2 (reMatchCaps [.grp, .lit (strL " - "), .grp, .lit (strL " - YouTube"), .eos] (strL s))

/-! ## The script's cleanup replaces -/

/-- Length of the leading whitespace run. -/
def countWS (l : List Char) : Nat := (l.takeWhile isWS).length

/-- Remainder after the first occurrence of the closing character, if any
(the extent of a greedy negated character class followed by the closer). -/
def afterClose (cls : Char) : List Char → Option (List Char)
  | [] => none
  | c :: cs => if c = cls then some cs else afterClose cls cs

/-- Fuelled worker modelling the global .NET replace of a pattern of the
shape whitespace-run, opener, non-closer run, closer, whitespace-run by the
empty string, scanning left to right over non-overlapping matches. -/
def stripDelimF (opn cls : Char) : Nat → List Char → List Char
  | _, [] => []
  | 0, s => s
  | fuel + 1, c :: cs =>
    let w := countWS (c :: cs)
    match (c :: cs).drop w with
    | o :: tail =>
      if o = opn then
        match afterClose cls tail with
        | some rest => stripDelimF opn cls fuel (rest.drop (countWS rest))
        | none => c :: stripDelimF opn cls fuel cs
      else c :: stripDelimF opn cls fuel cs
    | [] => c :: stripDelimF opn cls fuel cs

/-- PowerShell -replace of every parenthesised qualifier with surrounding
whitespace by the empty string. -/
def stripParens (s : String) : String := ofL (stripDelimF '(' ')' (strL s).length (strL s))

/-- PowerShell -replace of every bracketed qualifier with surrounding
whitespace by the empty string. -/
def stripBrackets (s : String) : String := ofL (stripDelimF '[' ']' (strL s).length (strL s))

/-- The script's extras cleanup: strip parenthesised then bracketed
qualifiers, then trim. -/
def psStripExtras (s : String) : String := goTrim (stripBrackets (stripParens s))

/-- The script's guarded cleanup: fall back to the pre-cleanup value when
stripping extras leaves the empty string. -/
def psCleanOrKeep (s : String) : String :=
  if psStripExtras s = "" then s else psStripExtras s

/-- Truncate a list at the first case-insensitive occurrence of a pattern. -/
def truncAtCI (pat : List Char) : List Char → List Char
  | [] => []
  | c :: cs => if startsWithCI pat (c :: cs) then [] else c :: truncAtCI pat cs

/-- PowerShell -replace of the case-insensitive suffix pattern starting at
a YouTube marker and running to the end of the string: truncation at the
first occurrence of the marker. -/
def psTruncYouTube (s : String) : String := ofL (truncAtCI (strL " - YouTube") (strL s))

/-! ## Data model -/

/-- MediaInfo from internal/audio/detector.go: the structured result of a
successful detection.  MType models the Go field named Type (a Lean
keyword); Duration and Position are never set by any probe in the
repository and default to zero. -/
structure MediaInfo where
  Title : String
  Artist : String
  Album : String
  Source : String
  MType : String
  Duration : Nat := 0
  Position : Nat := 0
deriving DecidableEq

/-- The compact structured record the embedded PowerShell script emits on
standard output and the Go side decodes (fields Title, Artist, Source,
Album of the JSON payload). -/
structure PSRecord where
  Title : String
  Artist : String
  Source : String
  Album : String
deriving DecidableEq

/-! ## The embedded PowerShell script's title parser
(internal/audio/detector.go lines 143-248, identical in
vscode-extension/src/audioDetector.ts) -/

/-- The script's friendly-name switch on the probed browser process name. -/
def friendlyBrowser (browserName : String) : String :=
  if browserName = "chrome" then "Google Chrome"
  else if browserName = "msedge" then "Microsoft Edge"
  else if browserName = "firefox" then "Firefox"
  else browserName

/-- The script's final generic browser pattern: a two-part title not
mentioning a browser vendor becomes artist - song attributed to the
browser. -/
def parseBrowserGeneric (browserName title : String) : Option PSRecord :=
  match matchTwo title with
  | some (m1, m2) =>
    if containsCI (strL title) (strL "Google") || containsCI (strL title) (strL "Microsoft")
        || containsCI (strL title) (strL "Firefox") then
      none
    else
      some { Title := m2, Artist := m1, Source := friendlyBrowser browserName, Album := "" }
  | none => none

/-- The script's generic YouTube fallback pattern, tried before the generic
browser pattern: truncate the second group at the YouTube marker, strip
extras, and fall back to the untruncated strip when that empties it. -/
def parseBrowserYTFallback (browserName title : String) : Option PSRecord :=
  if containsCI (strL title) (strL "YouTube") then
    match matchTwo title with
    | some (part1, m2) =>
      let part2 := psStripExtras (psTruncYouTube m2)
      some { Title := if part2 = "" then psTruncYouTube m2 else part2
             Artist := part1, Source := "YouTube", Album := "" }
    | none => parseBrowserGeneric browserName title
  else parseBrowserGeneric browserName title

/-- The script's ordered pattern cascade applied to one browser window
title, exactly in source order: YouTube Music, YouTube in Chrome with
artist and song, YouTube in Chrome with a bare video title, YouTube in
other browsers, generic YouTube fallback, generic browser pattern. -/
def parseBrowserTitle (browserName title : String) : Option PSRecord :=
  match matchYTMusic title with
  | some (song, artist) => some { Title := song, Artist := artist, Source := "YouTube Music", Album := "" }
  | none =>
    match matchYTChrome2 title with
    | some (artist, songWithExtras) =>
      some { Title := psCleanOrKeep songWithExtras, Artist := artist, Source := "YouTube", Album := "" }
    | none =>
      match matchYTChrome1 title with
      | some videoTitle =>
        match matchTwo videoTitle with
        | some (artist, m2) =>
          some { Title := psCleanOrKeep m2, Artist := artist, Source := "YouTube", Album := "" }
        | none => some { Title := videoTitle, Artist := "", Source := "YouTube", Album := "" }
      | none =>
        match matchYT2 title with
        | some (artist, song) =>
          some { Title := song, Artist := artist, Source := "YouTube", Album := "" }
        | none => parseBrowserYTFallback browserName title

/-- The script's Spotify branch applied to a Spotify main-window title. -/
def parseSpotifyTitle (title : String) : Option PSRecord :=
  match matchTwo title with
  | some (artist, song) =>
    some { Title := song, Artist := artist, Source := "Spotify", Album := "" }
  | none => none

/-! ## WSLWindowsDetector, Go side (internal/audio/detector.go) -/

/-- The appMappings table of WSLWindowsDetector.cleanSourceName. -/
def appMappings : List (String × String) :=
  [("Spotify.exe", "Spotify"),
   ("msedge.exe", "Microsoft Edge"),
   ("chrome.exe", "Google Chrome"),
   ("firefox.exe", "Firefox"),
   ("vlc.exe", "VLC"),
   ("Microsoft.ZuneMusic", "Groove Music"),
   ("Microsoft.WindowsMediaPlayer", "Windows Media Player"),
   ("YouTubeMusic", "YouTube Music")]

/-- Exact-key lookup in an association list (the Go map access). -/
def lookupMapping : List (String × String) → String → Option String
  | [], _ => none
  | (k, v) :: t, key => if k = key then some v else lookupMapping t key

/-- Go strings.Title on an ASCII string: capitalize every letter that
follows a non-letter. -/
def titleCaseL : Bool → List Char → List Char
  | _, [] => []
  | atStart, c :: cs => (if atStart then c.toUpper else c) :: titleCaseL (!c.isAlpha) cs

/-- WSLWindowsDetector.cleanSourceName: map a Windows application id to a
friendly display name. -/
def cleanSourceName (appId : String) : String :=
  match lookupMapping appMappings appId with
  | some friendly => friendly
  | none =>
    if goContains (goToLower appId) "spotify" then "Spotify"
    else if goContains (goToLower appId) "chrome" then "Google Chrome"
    else if goContains (goToLower appId) "edge" then "Microsoft Edge"
    else if goContains (goToLower appId) "youtube" then "YouTube Music"
    else if goEndsWith appId ".exe" then goDropBack appId ".exe"
    else if goContains appId "!" then
      match goSplit appId "!" with
      | [] => appId
      | p :: _ => ofL (titleCaseL true (strL (goToLower p)))
    else appId

/-- WSLWindowsDetector.determineMediaType: classify the media kind from
lower-cased title and source. -/
def determineMediaType (title source : String) : String :=
  let source2 := goToLower source
  let title2 := goToLower title
  if goContains source2 "podcast" || goContains title2 "episode" || goContains title2 "podcast" then
    "podcast"
  else if goContains source2 "youtube" || goContains source2 "edge" || goContains source2 "chrome"
      || goContains source2 "firefox" then
    "video"
  else
    "song"

/-- Outcome of running powershell.exe and decoding its output, the input to
the Go side of WSLWindowsDetector.Detect: the process failed, the trimmed
output was empty, the output was not valid JSON, or a decoded payload. -/
inductive WSLExec
  | procFailed (msg : String)
  | emptyOutput
  | parseFailed (msg : String)
  | payload (r : PSRecord)
deriving DecidableEq

/-- WSLWindowsDetector.Detect, Go side (lines 250-288): errors of the
external process and JSON decoding are returned as errors, empty output is
no media, and a payload becomes a MediaInfo with cleaned source and
computed type. -/
def wslDetect : WSLExec → Except String (Option MediaInfo)
  | .procFailed msg => .error ("PowerShell failed: " ++ msg)
  | .emptyOutput => .ok none
  | .parseFailed msg => .error ("failed to parse media session data: " ++ msg)
  | .payload r =>
    let source := cleanSourceName r.Source
    .ok (some { Title := r.Title, Artist := r.Artist, Album := r.Album, Source := source,
                MType := determineMediaType r.Title source })

/-! ## MPRISDetector (internal/audio/detector.go lines 32-108) -/

/-- What the playerctl invocations of one detection pass would return:
metadata lookup per key and the player listing, each either raw standard
output or an execution error. -/
structure MPRISEnv where
  metadata : String → Except String String
  listAll : Except String String

/-- MPRISDetector.getPlayerctlMetadata: trimmed output, or the error. -/
def getPlayerctlMetadata (env : MPRISEnv) (key : String) : Except String String :=
  match env.metadata key with
  | .error e => .error e
  | .ok out => .ok (goTrim out)

/-- Capitalize the first character and lower-case the rest (the player-name
normalization; Go would panic on an empty slice, which no claim reaches). -/
def capLower : List Char → List Char
  | [] => []
  | c :: cs => c.toUpper :: lowerL cs

/-- MPRISDetector.getActivePlayer: first listed player, cut at a dot and
capitalized. -/
def getActivePlayer (env : MPRISEnv) : Except String String :=
  match env.listAll with
  | .error e => .error e
  | .ok out =>
    match splitCharL '\n' (trimL (strL out)) with
    | [] => .ok ""
    | p :: _ =>
      if p.isEmpty then .ok ""
      else if containsL p (strL ".") then
        match splitLF (strL ".") p.length p with
        | [] => .ok ""
        | q :: _ => .ok (ofL (capLower q))
      else .ok (ofL (capLower p))

/-- MPRISDetector.Detect: a failing title query is returned as an error, an
empty title is no media, and otherwise artist, album and source degrade to
defaults on their own errors. -/
def mprisDetect (env : MPRISEnv) : Except String (Option MediaInfo) :=
  match getPlayerctlMetadata env "title" with
  | .error e => .error e
  | .ok title =>
    if title = "" then .ok none
    else
      let artist := match getPlayerctlMetadata env "artist" with
        | .ok a => a
        | .error _ => ""
      let album := match getPlayerctlMetadata env "album" with
        | .ok a => a
        | .error _ => ""
      let source0 := match getActivePlayer env with
        | .ok s => s
        | .error _ => ""
      let source := if source0 = "" then "Unknown" else source0
      .ok (some { Title := title, Artist := artist, Album := album, Source := source,
                  MType := "song" })

/-! ## MacOSDetector (internal/audio/detector.go lines 362-663) -/

/-- What the osascript invocations of one detection pass would return, per
application or browser name. -/
structure AppleScriptEnv where
  playerState : String → Except String String
  trackName : String → Except String String
  trackArtist : String → Except String String
  trackAlbum : String → Except String String
  windowNames : String → Except String String

/-- Degrade an artist or album query to the empty string on error or the
AppleScript missing-value marker. -/
def fieldOrEmpty (r : Except String String) : String :=
  match r with
  | .error _ => ""
  | .ok out =>
    let v := goTrim out
    if v = "missing value" then "" else v

/-- The music applications MacOSDetector.detectMusicApps queries, in
priority order, with their display sources. -/
def macMusicApps : List (String × String) :=
  [("Spotify", "Spotify"), ("Music", "Apple Music"), ("iTunes", "iTunes")]

/-- MacOSDetector.detectMusicApps over an explicit application list: skip an
app unless it reports the playing state and a usable track name. -/
def detectMusicAppsAux (env : AppleScriptEnv) : List (String × String) → Option MediaInfo
  | [] => none
  | (name, source) :: rest =>
    match env.playerState name with
    | .error _ => detectMusicAppsAux env rest
    | .ok out =>
      if goTrim out = "playing" then
        match env.trackName name with
        | .error _ => detectMusicAppsAux env rest
        | .ok tOut =>
          let title := goTrim tOut
          if title = "" ∨ title = "missing value" then detectMusicAppsAux env rest
          else
            some { Title := title, Artist := fieldOrEmpty (env.trackArtist name),
                   Album := fieldOrEmpty (env.trackAlbum name), Source := source,
                   MType := "song" }
      else detectMusicAppsAux env rest

/-- MacOSDetector.detectMusicApps. -/
def detectMusicApps (env : AppleScriptEnv) : Option MediaInfo :=
  detectMusicAppsAux env macMusicApps

/-- Priority partition of MacOSDetector.findMediaWindows: media windows
carrying the audio-playing marker come first, others after, source order
preserved within each class. -/
def partitionMedia : List String → List String × List String
  | [] => ([], [])
  | w :: ws =>
    let pr := partitionMedia ws
    if goContains w "YouTube" || goContains w "Music" then
      if goContains w "Audio playing" then (w :: pr.1, pr.2) else (pr.1, w :: pr.2)
    else pr

/-- Per-part adjustment of the Chrome-delimiter split in
MacOSDetector.findMediaWindows (n parts, part at index i). -/
def chromeSplitAdjust (n i : Nat) (part : String) : Option String :=
  if i = n - 1 ∧ goTrim part = "" then none
  else
    let part1 := if i > 0 then " - Google Chrome" ++ part
                 else if i < n - 1 then part ++ " - Google Chrome"
                 else part
    let part2 := goTrim part1
    let part3 := if goStartsWith part2 ", " then goDropFront part2 ", " else part2
    let part4 := if goEndsWith part3 "," then goDropBack part3 "," else part3
    if part4 = "" then none else some part4

/-- MacOSDetector.findMediaWindows: split the window list on the Chrome
suffix when present (else on comma-space), then order media windows by the
audio-playing priority. -/
def findMediaWindows (windowTitles : String) : List String :=
  let lines :=
    if goContains windowTitles " - Google Chrome" then
      let parts := goSplit windowTitles " - Google Chrome"
      parts.enum.filterMap (fun ip => chromeSplitAdjust parts.length ip.1 ip.2)
    else goSplit windowTitles ", "
  let pr := partitionMedia lines
  pr.1 ++ pr.2

/-- The literal video-indicator qualifiers MacOSDetector.cleanupTitle
removes (exact case variants from the source). -/
def videoPatterns : List String :=
  ["(Official Video)", "(official video)", "(Video)", "(video)",
   "(Official Music Video)", "(official music video)", "(Music Video)", "(music video)"]

/-- The literal audio-indicator qualifiers MacOSDetector.cleanupTitle
removes. -/
def audioPatterns : List String :=
  ["(Official Audio)", "(official audio)", "(Audio)", "(audio)"]

/-- MacOSDetector.cleanupTitle: cut featuring clauses (both checks against
the lower-casing of the original input, as in the source), remove the
literal video and audio qualifiers, and trim. -/
def cleanupTitle (title : String) : String :=
  let titleLower := goToLower title
  let t1 := if goContains titleLower "ft." then
              match goSplit title "ft." with
              | [] => title
              | p :: _ => goTrim p
            else title
  let t2 := if goContains titleLower "feat." then
              match goSplit t1 "feat." with
              | [] => t1
              | p :: _ => goTrim p
            else t1
  let t3 := videoPatterns.foldl (fun acc pat => goReplaceAll acc pat "") t2
  let t4 := audioPatterns.foldl (fun acc pat => goReplaceAll acc pat "") t3
  goTrim t4

/-- MacOSDetector.parseMediaTitle: remove audio-playing and memory-usage
markers and browser suffixes, cut at an en dash, split the remainder at the
separator into artist and title, and clean the title. -/
def parseMediaTitle (windowTitle : String) : String × String :=
  let c1 := goReplaceAll windowTitle "– Audio playing" ""
  let c2 := goReplaceAll c1 "- High memory usage" ""
  let c3 :=
    if goContains c2 " MB - Google Chrome" then
      match goSplit c2 " MB - Google Chrome" with
      | [] => c2
      | beforeMB :: restParts =>
        match lastIndexL (strL " - ") (strL beforeMB) with
        | some i =>
          if i > 0 then
            ofL ((strL beforeMB).take i) ++ " - Google Chrome"
              ++ ofL (joinSepL (strL " MB - Google Chrome") (restParts.map strL))
          else c2
        | none => c2
    else c2
  let c4 := goReplaceAll c3 "- Google Chrome" ""
  let c5 := goReplaceAll c4 "- YouTube" ""
  let c6 :=
    if goContains c5 "–" then
      let parts := goSplit c5 "–"
      if parts.length > 1 then
        match parts with
        | [] => c5
        | p :: _ => goTrim p
      else c5
    else c5
  let clean := goTrim c6
  let parts := goSplit clean " - "
  let pr :=
    match parts.reverse with
    | [] => (clean, "Unknown")
    | [_] => (clean, "Unknown")
    | last :: revFront =>
      (goTrim last, goTrim (ofL (joinSepL (strL " - ") (revFront.reverse.map strL))))
  (cleanupTitle pr.1, pr.2)

/-- The browsers MacOSDetector.detectBrowserMedia probes, in order. -/
def macBrowsers : List String := ["Google Chrome", "Safari", "Firefox"]

/-- MacOSDetector.detectBrowserMedia over an explicit browser list: first
browser with a non-empty window listing containing a media window wins, and
its best window is parsed into an unconditional YouTube video record. -/
def detectBrowserMediaAux (env : AppleScriptEnv) : List String → Option MediaInfo
  | [] => none
  | b :: rest =>
    match env.windowNames b with
    | .error _ => detectBrowserMediaAux env rest
    | .ok out =>
      let windowTitles := goTrim out
      if windowTitles = "" then detectBrowserMediaAux env rest
      else
        match findMediaWindows windowTitles with
        | [] => detectBrowserMediaAux env rest
        | w :: _ =>
          let ta := parseMediaTitle w
          some { Title := ta.1, Artist := ta.2, Album := "", Source := "YouTube",
                 MType := "video" }

/-- MacOSDetector.detectBrowserMedia. -/
def detectBrowserMedia (env : AppleScriptEnv) : Option MediaInfo :=
  detectBrowserMediaAux env macBrowsers

/-- MacOSDetector.Detect: music applications first, browser windows as the
fallback. -/
def macosDetect (env : AppleScriptEnv) : Option MediaInfo :=
  match detectMusicApps env with
  | some m => some m
  | none => detectBrowserMedia env

/-! ## Detection coordinator (AudioManager, internal/audio/detector.go
lines 665-715) -/

/-- One probe as the coordinator sees it during a single detection pass:
its name, what its availability check reports, and what its detect call
would return (Go's pair of a possibly-nil record and a possibly-nil
error). -/
structure Probe where
  name : String
  available : Bool
  detectResult : Except String (Option MediaInfo)

/-- AudioManager.Detect: iterate the probes in order, skip unavailable
ones, return the first record produced without error, and report the
aggregate error when every probe is exhausted. -/
def managerDetect : List Probe → Except String MediaInfo
  | [] => .error "no audio detected from any source"
  | p :: ps =>
    if p.available then
      match p.detectResult with
      | .ok (some m) => .ok m
      | _ => managerDetect ps
    else managerDetect ps

/-- AudioManager.Detect instrumented with the list of probes whose detect
operation is actually invoked, in invocation order. -/
def managerDetectTrace : List Probe → Except String MediaInfo × List String
  | [] => (.error "no audio detected from any source", [])
  | p :: ps =>
    if p.available then
      match p.detectResult with
      | .ok (some m) => (.ok m, [p.name])
      | _ =>
        let r := managerDetectTrace ps
        (r.1, p.name :: r.2)
    else managerDetectTrace ps

/-- AudioManager.ListDetectors: the probes currently reporting available;
never invokes detection. -/
def listDetectors (probes : List Probe) : List Probe :=
  probes.filter (fun p => p.available)

/-! ## Formatter (internal/format/commit.go) and hook caller
(internal/cli/hook.go) -/

/-- FormatCommitMessage: the one-line rendering of a record, empty for a
nil record. -/
def FormatCommitMessage : Option MediaInfo → String
  | none => ""
  | some media =>
    if media.Artist ≠ "" then
      "🎵 Currently playing: \"" ++ media.Title ++ "\" by " ++ media.Artist
        ++ " (" ++ media.Source ++ ")"
    else
      "🎵 Currently playing: \"" ++ media.Title ++ "\" (" ++ media.Source ++ ")"

/-- The real-content check of runHook: some line has a non-empty trimmed
form that does not start with the comment marker. -/
def hasRealContent (content : String) : Bool :=
  ((splitCharL '\n' (strL content)).map ofL).any
    (fun line => !(goTrim line = "") && !goStartsWith (goTrim line) "#")

/-- The commit-message transformation of runHook (internal/cli/hook.go
lines 44-79), as a function of the current file content and the detection
outcome: the result is the new content when the file is rewritten and none
when the hook leaves the file untouched. -/
def runHook (content : String) (det : Except String (Option MediaInfo)) : Option String :=
  match det with
  | .error _ => none
  | .ok none => none
  | .ok (some media) =>
    if hasRealContent content then
      some (goTrimRightNL content ++ "\n\n" ++ FormatCommitMessage (some media) ++ "\n")
    else none

/-! ## Supporting lemmas -/

/-- Every record detectMusicAppsAux produces passed the non-empty,
non-missing-value title guard. -/
theorem detectMusicAppsAux_title (env : AppleScriptEnv) :
    ∀ (apps : List (String × String)) (m : MediaInfo),
      detectMusicAppsAux env apps = some m → m.Title ≠ "" ∧ m.Title ≠ "missing value" := by
  intro apps
  induction apps with
  | nil => intro m h; exact absurd h (by simp [detectMusicAppsAux])
  | cons a rest ih =>
    intro m h
    obtain ⟨name, source⟩ := a
    unfold detectMusicAppsAux at h
    cases hps : env.playerState name with
    | error e => rw [hps] at h; exact ih m h
    | ok out =>
      rw [hps] at h
      by_cases hpl : goTrim out = "playing"
      · simp only [hpl, if_true] at h
        cases htn : env.trackName name with
        | error e => rw [htn] at h; exact ih m h
        | ok tOut =>
          rw [htn] at h
          by_cases hte : goTrim tOut = "" ∨ goTrim tOut = "missing value"
          · simp only [hte, if_true] at h; exact ih m h
          · simp only [hte, if_false] at h
            cases h.symm
            push_neg at hte
            exact ⟨hte.1, hte.2⟩
      · simp only [hpl, if_false] at h; exact ih m h

/-- On a title free of podcast indicators, determineMediaType classifies
the YouTube Music source as video. -/
theorem determineMediaType_ytmusic (song : String)
    (h1 : goContains (goToLower song) "episode" = false)
    (h2 : goContains (goToLower song) "podcast" = false) :
    determineMediaType song "YouTube Music" = "video" := by
  unfold determineMediaType
  have e1 : goContains (goToLower "YouTube Music") "podcast" = false := by decide
  have e2 : goContains (goToLower "YouTube Music") "youtube" = true := by decide
  simp [e1, e2, h1, h2]

/-! ## Claims -/

/-- Claim C1 (confirmed): AudioManager.Detect iterates its probes in their
fixed order, skips every probe whose availability check reports
unavailable, and returns the first record produced without error by an
available probe, invoking no probe after it: with a first unavailable
probe, a second available probe finding nothing, and a third available
probe returning a record, the result is the third probe's record and the
invocation trace is exactly the second and third probes, whatever probes
follow. -/
theorem c1_coordinator_short_circuit (p1 p2 p3 : Probe) (ps : List Probe) (m : MediaInfo)
    (h1 : p1.available = false) (h2 : p2.available = true)
    (h2r : p2.detectResult = Except.ok none) (h3 : p3.available = true)
    (h3r : p3.detectResult = Except.ok (some m)) :
    managerDetectTrace (p1 :: p2 :: p3 :: ps) = (Except.ok m, [p2.name, p3.name]) ∧
    managerDetect (p1 :: p2 :: p3 :: ps) = Except.ok m := by
  constructor <;> simp [managerDetectTrace, managerDetect, h1, h2, h2r, h3, h3r]

/-- Witness for C1 at a concrete three-probe configuration. -/
theorem c1_witness :
    managerDetectTrace
      [{ name := "MPRIS/playerctl", available := false, detectResult := Except.ok none },
       { name := "WSL2/Windows Media Session", available := true, detectResult := Except.ok none },
       { name := "macOS AppleScript", available := true,
         detectResult := Except.ok (some { Title := "Hamnitishi", Artist := "E-Sir", Album := "",
                                           Source := "Spotify", MType := "song" }) }] =
      (Except.ok { Title := "Hamnitishi", Artist := "E-Sir", Album := "", Source := "Spotify",
                   MType := "song" },
       ["WSL2/Windows Media Session", "macOS AppleScript"]) ∧
    managerDetect
      [{ name := "MPRIS/playerctl", available := false, detectResult := Except.ok none },
       { name := "WSL2/Windows Media Session", available := true, detectResult := Except.ok none },
       { name := "macOS AppleScript", available := true,
         detectResult := Except.ok (some { Title := "Hamnitishi", Artist := "E-Sir", Album := "",
                                           Source := "Spotify", MType := "song" }) }] =
      Except.ok { Title := "Hamnitishi", Artist := "E-Sir", Album := "", Source := "Spotify",
                  MType := "song" } :=
  c1_coordinator_short_circuit _ _ _ [] _ rfl rfl rfl rfl rfl

/-- The playerctl environment of the C2 counterexample: every invocation
fails (playerctl missing or exiting non-zero). -/
def c2Env : MPRISEnv :=
  { metadata := fun _ => Except.error "exit status 1",
    listAll := Except.error "exit status 1" }

/-- Counterexample to claim C2: when the external process errors, the MPRIS
probe's Detect returns that error to its caller rather than none — so
probes do not fail silently as stated. -/
theorem c2_counterexample :
    mprisDetect c2Env = Except.error "exit status 1" ∧
    mprisDetect c2Env ≠ Except.ok none := by
  constructor
  · rfl
  · intro h
    rw [show mprisDetect c2Env = Except.error "exit status 1" from rfl] at h
    exact Except.noConfusion h

/-- Claim C2 as amended (corrected): a probe whose external process errors
surfaces the error together with no record — the MPRIS probe propagates a
failing title query, and the WSL probe wraps a process failure in an error
— and the Coordinator treats such an erroring available probe exactly like
a probe that found nothing, so the failure never propagates past the
Coordinator. -/
theorem c2_probe_errors_swallowed_by_coordinator :
    (∀ (env : MPRISEnv) (e : String), env.metadata "title" = Except.error e →
        mprisDetect env = Except.error e) ∧
    (∀ msg : String,
        wslDetect (WSLExec.procFailed msg) = Except.error ("PowerShell failed: " ++ msg)) ∧
    (∀ (p : Probe) (ps : List Probe) (e : String), p.available = true →
        p.detectResult = Except.error e → managerDetect (p :: ps) = managerDetect ps) := by
  refine ⟨?_, ?_, ?_⟩
  · intro env e h
    simp [mprisDetect, getPlayerctlMetadata, h]
  · intro msg
    rfl
  · intro p ps e hav hres
    simp [managerDetect, hav, hres]

/-- Witness for the amended C2 at concrete inputs. -/
theorem c2_witness :
    mprisDetect c2Env = Except.error "exit status 1" ∧
    managerDetect
      [{ name := "MPRIS/playerctl", available := true, detectResult := Except.error "exit status 1" }]
      = managerDetect [] :=
  ⟨c2_probe_errors_swallowed_by_coordinator.1 c2Env "exit status 1" rfl,
   c2_probe_errors_swallowed_by_coordinator.2.2
     { name := "MPRIS/playerctl", available := true, detectResult := Except.error "exit status 1" }
     [] "exit status 1" rfl rfl⟩

/-- Counterexample to claim C3: a single available probe finding nothing
exhausts the probe list, and AudioManager.Detect reports that to its
immediate caller as an error value, not as an empty result. -/
theorem c3_counterexample :
    managerDetect [{ name := "probe", available := true, detectResult := Except.ok none }] =
      Except.error "no audio detected from any source" := rfl

/-- Claim C3 as amended (corrected): when every probe is exhausted without
a record, AudioManager.Detect returns no record together with the error
value reading no audio detected from any source to its immediate caller;
the hook caller treats that error identically to an empty result and
leaves the commit message untouched. -/
theorem c3_exhaustion_is_error :
    (∀ probes : List Probe,
        (∀ p ∈ probes, p.available = false ∨ ∀ m : MediaInfo, p.detectResult ≠ Except.ok (some m)) →
        managerDetect probes = Except.error "no audio detected from any source") ∧
    (∀ content e : String, runHook content (Except.error e) = none) := by
  constructor
  · intro probes h
    induction probes with
    | nil => rfl
    | cons p ps ih =>
      have hp := h p (List.mem_cons_self p ps)
      have hps := fun q hq => h q (List.mem_cons_of_mem p hq)
      rcases hp with hav | hres
      · simp [managerDetect, hav, ih hps]
      · by_cases hav2 : p.available
        · cases hdr : p.detectResult with
          | error e => simp [managerDetect, hav2, hdr, ih hps]
          | ok o =>
            cases o with
            | none => simp [managerDetect, hav2, hdr, ih hps]
            | some m => exact absurd hdr (hres m)
        · simp [managerDetect, hav2, ih hps]
  · intro content e
    rfl

/-- Witness for the amended C3 at concrete inputs. -/
theorem c3_witness :
    managerDetect
      [{ name := "p1", available := false, detectResult := Except.ok none },
       { name := "p2", available := true, detectResult := Except.ok none }] =
      Except.error "no audio detected from any source" ∧
    runHook "fix: bug\n" (Except.error "no audio detected from any source") = none :=
  ⟨c3_exhaustion_is_error.1 _
      (by
        intro p hp
        simp only [List.mem_cons, List.not_mem_nil, or_false] at hp
        rcases hp with h | h
        · subst h; exact Or.inl rfl
        · subst h
          exact Or.inr (fun m hm => Option.noConfusion (Except.ok.inj hm))),
   c3_exhaustion_is_error.2 "fix: bug\n" "no audio detected from any source"⟩

/-- The osascript environment of the C4 counterexample: no music app is
reachable, and Chrome reports a single window titled "- YouTube". -/
def c4Env : AppleScriptEnv :=
  { playerState := fun _ => Except.error "not running",
    trackName := fun _ => Except.error "not running",
    trackArtist := fun _ => Except.error "not running",
    trackAlbum := fun _ => Except.error "not running",
    windowNames := fun b =>
      if b = "Google Chrome" then Except.ok "- YouTube" else Except.error "not running" }

/-- Counterexample to claim C4: the macOS browser-window phase of
MacOSDetector.Detect, fed a Chrome window titled "- YouTube", produces a
record whose title is the empty string — suffix stripping empties the
title and no guard prevents the record. -/
theorem c4_counterexample :
    macosDetect c4Env =
      some { Title := "", Artist := "Unknown", Album := "", Source := "YouTube",
             MType := "video" } := by
  rfl

/-- Claim C4 as amended (corrected): the MPRIS probe and the macOS
music-application phase only ever produce records with a non-empty title
(the MPRIS title is checked against empty, the macOS track name against
empty and the missing-value marker); the WSL probe forwards the payload
title unchecked and the macOS browser-window phase can produce an
empty-title record, so the invariant does not hold for every probe. -/
theorem c4_nonempty_title_mpris_macmusic :
    (∀ (env : MPRISEnv) (m : MediaInfo), mprisDetect env = Except.ok (some m) → m.Title ≠ "") ∧
    (∀ (env : AppleScriptEnv) (m : MediaInfo), detectMusicApps env = some m →
        m.Title ≠ "" ∧ m.Title ≠ "missing value") := by
  constructor
  · intro env m h ht
    unfold mprisDetect at h
    cases heq : getPlayerctlMetadata env "title" with
    | error e => rw [heq] at h; exact Except.noConfusion h
    | ok t =>
      rw [heq] at h
      by_cases h0 : t = ""
      · simp [h0] at h
      · simp [h0] at h
        have hm : m.Title = t := by
          cases h.symm
          rfl
        exact h0 (hm ▸ ht)
  · intro env m h
    exact detectMusicAppsAux_title env macMusicApps m h

/-- Witness for the amended C4 at concrete environments. -/
theorem c4_witness :
    ({ Title := "Song", Artist := "A", Album := "A", Source := "Spotify",
       MType := "song" } : MediaInfo).Title ≠ "" ∧
    ({ Title := "T", Artist := "", Album := "", Source := "Spotify",
       MType := "song" } : MediaInfo).Title ≠ "" :=
  ⟨c4_nonempty_title_mpris_macmusic.1
     { metadata := fun k => if k = "title" then Except.ok "Song" else Except.ok "A",
       listAll := Except.ok "spotify" } _ rfl,
   (c4_nonempty_title_mpris_macmusic.2
     { playerState := fun a => if a = "Spotify" then Except.ok "playing" else Except.error "no",
       trackName := fun a => if a = "Spotify" then Except.ok "T" else Except.error "no",
       trackArtist := fun _ => Except.error "no",
       trackAlbum := fun _ => Except.error "no",
       windowNames := fun _ => Except.error "no" } _ rfl).1⟩

/-- Counterexample to claim C5: on the spec's own example title the parser
extracts title and artist and the source is YouTube Music, but the Go side
classifies the kind as video, not song, because determineMediaType treats
every source containing a YouTube marker as video. -/
theorem c5_counterexample :
    parseBrowserTitle "chrome" "Lo-Fi Hip Hop - ChilledCow - YouTube Music" =
      some { Title := "Lo-Fi Hip Hop", Artist := "ChilledCow", Source := "YouTube Music",
             Album := "" } ∧
    wslDetect (WSLExec.payload { Title := "Lo-Fi Hip Hop", Artist := "ChilledCow",
                                 Source := "YouTube Music", Album := "" }) =
      Except.ok (some { Title := "Lo-Fi Hip Hop", Artist := "ChilledCow", Album := "",
                        Source := "YouTube Music", MType := "video" }) ∧
    ("video" : String) ≠ "song" :=
  ⟨by decide, by rfl, by decide⟩

/-- Claim C5 as amended (corrected): for every title string matching the
YouTube Music pattern, the script's parser extracts the two captured groups
as title and artist with source YouTube Music, and the resulting record of
the WSL probe keeps those fields, with kind video (not song) whenever the
title carries no podcast indicator. -/
theorem c5_ytmusic_pattern (t song artist : String)
    (h : matchYTMusic t = some (song, artist))
    (h1 : goContains (goToLower song) "episode" = false)
    (h2 : goContains (goToLower song) "podcast" = false) :
    parseBrowserTitle "chrome" t =
      some { Title := song, Artist := artist, Source := "YouTube Music", Album := "" } ∧
    wslDetect (WSLExec.payload { Title := song, Artist := artist, Source := "YouTube Music",
                                 Album := "" }) =
      Except.ok (some { Title := song, Artist := artist, Album := "", Source := "YouTube Music",
                        MType := "video" }) := by
  constructor
  · simp [parseBrowserTitle, h]
  · have hs : cleanSourceName "YouTube Music" = "YouTube Music" := by decide
    simp [wslDetect, hs, determineMediaType_ytmusic song h1 h2]

/-- Witness for the amended C5 at the spec's example title. -/
theorem c5_witness :
    parseBrowserTitle "chrome" "Lo-Fi Hip Hop - ChilledCow - YouTube Music" =
      some { Title := "Lo-Fi Hip Hop", Artist := "ChilledCow", Source := "YouTube Music",
             Album := "" } ∧
    wslDetect (WSLExec.payload { Title := "Lo-Fi Hip Hop", Artist := "ChilledCow",
                                 Source := "YouTube Music", Album := "" }) =
      Except.ok (some { Title := "Lo-Fi Hip Hop", Artist := "ChilledCow", Album := "",
                        Source := "YouTube Music", MType := "video" }) :=
  c5_ytmusic_pattern "Lo-Fi Hip Hop - ChilledCow - YouTube Music" "Lo-Fi Hip Hop" "ChilledCow"
    (by decide) (by decide) (by decide)

/-- Counterexample to claim C6: the macOS parser has no fallback — on the
window title "x - (Official Video)" the extracted title is cleaned to the
empty string and returned as such, although the pre-cleanup value was
non-empty. -/
theorem c6_counterexample :
    parseMediaTitle "x - (Official Video)" = ("", "x") ∧
    cleanupTitle "(Official Video)" = "" :=
  ⟨by decide, by decide⟩

/-- Claim C6 as amended (corrected): the fallback exists only in the
bridge-probe script — its per-pattern cleanup returns the pre-cleanup value
whenever stripping extras empties the title, and hence never turns a
non-empty title into an empty one — while the macOS cleanupTitle pass has
no such fallback and can return an empty title. -/
theorem c6_script_cleanup_fallback (s : String) :
    (psStripExtras s = "" → psCleanOrKeep s = s) ∧ (s ≠ "" → psCleanOrKeep s ≠ "") := by
  constructor
  · intro h
    unfold psCleanOrKeep
    simp [h]
  · intro hs
    unfold psCleanOrKeep
    split
    · exact hs
    · next h => exact h

/-- Witness for the amended C6 at a concrete title emptied by cleanup. -/
theorem c6_witness :
    psCleanOrKeep "(Official Video)" = "(Official Video)" ∧
    psCleanOrKeep "(Official Video)" ≠ "" :=
  ⟨(c6_script_cleanup_fallback "(Official Video)").1 (by decide),
   (c6_script_cleanup_fallback "(Official Video)").2 (by decide)⟩

/-- Counterexample to claim C7: cleanup is not idempotent — removing one
qualifier can splice together a new removable qualifier, as on the title
below, which one pass cleans to a parenthesised video qualifier and a
second pass cleans to the empty string. -/
theorem c7_counterexample :
    cleanupTitle (cleanupTitle "(Offi(Audio)cial Video)") ≠
      cleanupTitle "(Offi(Audio)cial Video)" := by
  decide

/-- Claim C7 as amended (corrected): applying cleanup twice can differ from
applying it once; on the spec's example the pass behaves as stated — the
example cleans to the bare title and re-running cleanup leaves that result
unchanged. -/
theorem c7_cleanup_example_stable :
    cleanupTitle "Bohemian Rhapsody (Official Video)" = "Bohemian Rhapsody" ∧
    cleanupTitle "Bohemian Rhapsody" = "Bohemian Rhapsody" :=
  ⟨by decide, by decide⟩

/-- Claim C8 (confirmed): FormatCommitMessage is a pure function of the
record — for every record with non-empty artist it renders the by-form
template, and for every record with empty artist the artist-free
template, in both cases built from exactly the title, artist and source
fields. -/
theorem c8_formatter_template (m : MediaInfo) :
    (m.Artist ≠ "" → FormatCommitMessage (some m) =
      "🎵 Currently playing: \"" ++ m.Title ++ "\" by " ++ m.Artist
        ++ " (" ++ m.Source ++ ")") ∧
    (m.Artist = "" → FormatCommitMessage (some m) =
      "🎵 Currently playing: \"" ++ m.Title ++ "\" (" ++ m.Source ++ ")") := by
  constructor <;> intro h <;> simp [FormatCommitMessage, h]

/-- Witness for C8 at the spec's example records. -/
theorem c8_witness :
    FormatCommitMessage (some { Title := "Hamnitishi", Artist := "E-Sir", Album := "",
                                Source := "Spotify", MType := "song" }) =
      "🎵 Currently playing: \"Hamnitishi\" by E-Sir (Spotify)" ∧
    FormatCommitMessage (some { Title := "X", Artist := "", Album := "", Source := "Z",
                                MType := "song" }) =
      "🎵 Currently playing: \"X\" (Z)" :=
  ⟨((c8_formatter_template
        { Title := "Hamnitishi", Artist := "E-Sir", Album := "", Source := "Spotify", MType := "song" }).1
      (by decide)).trans (by decide),
   ((c8_formatter_template
        { Title := "X", Artist := "", Album := "", Source := "Z", MType := "song" }).2
      (by decide)).trans (by decide)⟩

/-- Claim C9 (confirmed): when every line of the commit message trims to
the empty string or starts with the comment marker, runHook leaves the
commit-message file unchanged whatever the detection outcome. -/
theorem c9_hook_preserves_empty_message (content : String)
    (det : Except String (Option MediaInfo))
    (h : ∀ line ∈ (splitCharL '\n' (strL content)).map ofL,
        goTrim line = "" ∨ goStartsWith (goTrim line) "#" = true) :
    runHook content det = none := by
  have hc : hasRealContent content = false := by
    unfold hasRealContent
    rw [List.any_eq_false]
    intro line hl
    rcases h line hl with h1 | h1 <;> simp [h1]
  cases det with
  | error e => rfl
  | ok o =>
    cases o with
    | none => rfl
    | some m => simp [runHook, hc]

/-- Witness for C9 on a comment-and-whitespace-only message with a
successful detection. -/
theorem c9_witness :
    runHook "# Please enter the commit message.\n\n  \n# Lines starting with a hash are ignored.\n"
      (Except.ok (some { Title := "Hamnitishi", Artist := "E-Sir", Album := "",
                         Source := "Spotify", MType := "song" })) = none :=
  c9_hook_preserves_empty_message _ _ (by decide)

/-- Claim C10 (confirmed): FormatCommitMessage is total on absent input —
called with no record it returns the empty string, so a caller may apply
it unconditionally to the detection result. -/
theorem c10_formatter_nil : FormatCommitMessage none = "" := rfl
